import Mathlib

/-!
# imglog: single-slot image upload and retrieval

A shallow embedding of `handleUpload` and `handleImageView` from `src/index.js`.

* An awaited call that may reject is a function returning `Except String α`, the
  string being the `message` of the thrown error.
* `env.IMAGES` is an explicit record of state-passing operations (`KVNamespace`),
  so that the handlers can be run against any behaviour of the backing store,
  including one whose answers change between two calls.
* `memKV` is an in-memory store with a call log and an injectable fault script,
  used for the claims that speak about the content of the store.
* The `Response` constructor normalizes and checks the header values it is given;
  `headerValue` models that step, and `Runtime` holds what differs between runtimes.
-/

namespace Imglog

/-! ## Data model -/

/-- Raw binary payload (the content of an `ArrayBuffer`). -/
abbrev Bytes := List (Fin 256)

/-- The `File` object found in a parsed form: `name`, `type`, `size`, and the result of
awaiting `arrayBuffer()`. -/
structure File where
  name : String
  type : String
  size : Nat
  arrayBuffer : Except String Bytes

/-- An entry value of a parsed form: a string or a `File`. -/
inductive FormValue where
  | text (s : String)
  | file (f : File)

/-- The two fields that `handleUpload` reads with `formData.get`; `none` is the `null`
returned for a field that is absent. -/
structure FormData where
  photo : Option FormValue
  key : Option FormValue

/-- The part of the request that `handleUpload` reads: the result of awaiting
`request.formData()` and the origin of `request.url`. -/
structure Request where
  formData : Except String FormData
  origin : String

/-- The metadata record attached to a stored value. The store accepts arbitrary records, so
every field may be missing. -/
structure Metadata where
  originalName : Option String
  mimeType : Option String
  size : Option Nat
  uploadDate : Option String
deriving DecidableEq

/-- The result object of `getWithMetadata`: both members are `null` for a missing key. -/
structure ValueWithMetadata where
  value : Option Bytes
  metadata : Option Metadata
deriving DecidableEq

/-- Values of the JSON envelopes the upload handler writes. -/
inductive JsonValue where
  | bool (b : Bool)
  | str (s : String)
deriving DecidableEq

/-- Response body: a string, raw bytes, or the object given to `JSON.stringify`
(its fields in order). -/
inductive Body where
  | text (s : String)
  | bytes (b : Bytes)
  | json (fields : List (String × JsonValue))
deriving DecidableEq

/-- The `Response` built by a handler: status (200 when not given), the headers passed
explicitly, and the body. -/
structure Response where
  status : Nat
  headers : List (String × String)
  body : Body
deriving DecidableEq

/-- The `env.IMAGES` binding: five awaited operations over a store state `σ`. Each one may
reject with a message and may leave the store in a new state. `list` yields the `name` of each
entry of `keys`. -/
structure KVNamespace (σ : Type) where
  list : σ → Except String (List String) × σ
  delete : String → σ → Except String Unit × σ
  put : String → Bytes → Metadata → σ → Except String Unit × σ
  get : String → σ → Except String (Option Bytes) × σ
  getWithMetadata : String → σ → Except String ValueWithMetadata × σ

/-- The bindings read by the handlers: `env.UPLOAD_KEY` (`none` when undefined) and
`env.IMAGES`. -/
structure Env (σ : Type) where
  UPLOAD_KEY : Option String
  IMAGES : KVNamespace σ

/-! ## `handleUpload` -/

/-- `env.UPLOAD_KEY || 'your-upload-key'`: the fallback is taken when the binding is
undefined and also when it is the empty string, which is falsy. -/
def expectedKey (uploadKeyBinding : Option String) : String :=
  match uploadKeyBinding with
  | none => "your-upload-key"
  | some k => if k = "" then "your-upload-key" else k

/-- JavaScript truthiness of a form entry: `null` and the empty string are falsy, every
other string and every `File` object (whatever its size) is truthy. -/
def truthy : Option FormValue → Bool
  | none => false
  | some (.text s) => !(s == "")
  | some (.file _) => true

/-- The test `uploadKey === expectedKey` against a string: only an equal string passes. -/
def strictEq : Option FormValue → String → Bool
  | some (.text s), e => s == e
  | _, _ => false

/-- The property `file.type`: the declared type of a `File`, `undefined` for a string. -/
def declaredType : FormValue → Option String
  | .text _ => none
  | .file f => some f.type

/-- The allow-list of line 60. -/
def allowedTypes : List String := ["image/jpeg", "image/png", "image/gif", "image/webp"]

/-- `allowedTypes.includes(file.type)`; `undefined` is never included. -/
def includesType (t : Option String) : Bool :=
  match t with
  | none => false
  | some t => allowedTypes.contains t

/-- The fixed name every upload writes under. -/
def filename : String := "current-image"

/-- The metadata object of the `put` call; `now` is `new Date().toISOString()`. -/
def uploadMetadata (now : String) (f : File) : Metadata :=
  ⟨some f.name, some f.type, some f.size, some now⟩

/-- The success envelope of lines 85-92 (status 200 by default). -/
def successResponse (origin : String) : Response :=
  ⟨200, [("Content-Type", "application/json")],
    .json [("success", .bool true), ("filename", .str filename),
      ("url", .str (origin ++ "/image")), ("message", .str "Photo uploaded successfully!")]⟩

/-- The failure envelope of lines 95-101. -/
def failureResponse (message : String) : Response :=
  ⟨500, [("Content-Type", "application/json")],
    .json [("success", .bool false), ("error", .str message)]⟩

/-- The loop of lines 66-68: one awaited `delete` per listed key, in order; the first
rejection leaves the loop. -/
def deleteAll {σ : Type} (kv : KVNamespace σ) : List String → σ → Except String Unit × σ
  | [], s => (.ok (), s)
  | k :: ks, s =>
    match kv.delete k s with
    | (.error e, s1) => (.error e, s1)
    | (.ok _, s1) => deleteAll kv ks s1

/-- Lines 65-92: clear phase, read of the payload, write phase, success envelope. -/
def replaceImage {σ : Type} (now : String) (origin : String) (env : Env σ) (f : File) (s : σ) :
    Except String Response × σ :=
  match env.IMAGES.list s with
  | (.error e, s1) => (.error e, s1)
  | (.ok keys, s1) =>
    match deleteAll env.IMAGES keys s1 with
    | (.error e, s2) => (.error e, s2)
    | (.ok _, s2) =>
      match f.arrayBuffer with
      | .error e => (.error e, s2)
      | .ok arrayBuffer =>
        match env.IMAGES.put filename arrayBuffer (uploadMetadata now f) s2 with
        | (.error e, s3) => (.error e, s3)
        | (.ok _, s3) => (.ok (successResponse origin), s3)

/-- The `try` block of `handleUpload` (lines 47-92): `.error e` is a throw with message `e`. -/
def handleUploadTry {σ : Type} (now : String) (request : Request) (env : Env σ) (s : σ) :
    Except String Response × σ :=
  match request.formData with
  | .error e => (.error e, s)
  | .ok formData =>
    let file := formData.photo
    let uploadKey := formData.key
    if !truthy uploadKey || !strictEq uploadKey (expectedKey env.UPLOAD_KEY) then
      (.ok ⟨401, [], .text "Unauthorized"⟩, s)
    else if !truthy file then
      (.ok ⟨400, [], .text "No file uploaded"⟩, s)
    else
      match file with
      | none => (.ok ⟨400, [], .text "No file uploaded"⟩, s) -- not reached: `null` is falsy
      | some v =>
        if !includesType (declaredType v) then
          (.ok ⟨400, [], .text "Invalid file type. Only JPEG, PNG, GIF, and WebP allowed."⟩, s)
        else
          match v with
          | .text _ => -- not reached: a string declares no type
            (.ok ⟨400, [], .text "Invalid file type. Only JPEG, PNG, GIF, and WebP allowed."⟩, s)
          | .file f => replaceImage now request.origin env f s

/-- The function `handleUpload` (lines 45-103): the `try` block, and the `catch` that turns a
throw into the failure envelope. -/
def handleUpload {σ : Type} (now : String) (request : Request) (env : Env σ) (s : σ) :
    Response × σ :=
  match handleUploadTry now request env s with
  | (.ok r, s1) => (r, s1)
  | (.error e, s1) => (failureResponse e, s1)

/-! ## `handleImageView` -/

/-- `metadata.metadata?.mimeType || 'image/jpeg'`: the fallback is taken for a `null`
metadata record, a record without `mimeType`, and an empty `mimeType`. -/
def contentType (r : ValueWithMetadata) : String :=
  match r.metadata with
  | none => "image/jpeg"
  | some m =>
    match m.mimeType with
    | none => "image/jpeg"
    | some t => if t = "" then "image/jpeg" else t

/-- What the runtime leaves open about the `Response` constructor when it is given a header
value it does not accept: the `message` of the `TypeError` it throws for that value, and
whether a value holding a code point above 255 is refused (runtimes differ on this). -/
structure Runtime where
  typeErrorMessage : String → String
  rejectsNonLatin1 : Bool

/-- HTTP whitespace: tab, line feed, carriage return, space. -/
def isHttpWhitespace (c : Char) : Bool :=
  c.toNat == 9 || c.toNat == 10 || c.toNat == 13 || c.toNat == 32

/-- Characters no header value may hold: NUL, line feed, carriage return. -/
def isForbiddenInValue (c : Char) : Bool :=
  c.toNat == 0 || c.toNat == 10 || c.toNat == 13

/-- Removal of leading and trailing HTTP whitespace. -/
def stripWhitespace (cs : List Char) : List Char :=
  ((cs.dropWhile isHttpWhitespace).reverse.dropWhile isHttpWhitespace).reverse

/-- The value a header takes from the string given for it: surrounding whitespace removed. -/
def normalizeValue (raw : String) : String := String.mk (stripWhitespace raw.data)

/-- What `new Response(body, { headers })` does with one header value (lines 121-126): the
value is normalized, and a normalized value holding NUL, line feed or carriage return makes
the constructor throw a `TypeError`; so does, on a runtime that refuses them, a code point
above 255. -/
def headerValue (rt : Runtime) (raw : String) : Except String String :=
  if (normalizeValue raw).data.any isForbiddenInValue
      || (raw.data.any (fun c => decide (255 < c.toNat)) && rt.rejectsNonLatin1) then
    .error (rt.typeErrorMessage raw)
  else
    .ok (normalizeValue raw)

/-- The `try` block of `handleImageView` (lines 107-126). A present payload is truthy even
when it has no bytes. The `Response` of lines 121-126 is built inside the `try`, so a header
value the constructor refuses is a throw. -/
def handleImageViewTry {σ : Type} (rt : Runtime) (env : Env σ) (s : σ) :
    Except String Response × σ :=
  match env.IMAGES.list s with
  | (.error e, s1) => (.error e, s1)
  | (.ok [], s1) => (.ok ⟨404, [], .text "No image found"⟩, s1)
  | (.ok (name :: _), s1) =>
    match env.IMAGES.get name s1 with
    | (.error e, s2) => (.error e, s2)
    | (.ok imageData, s2) =>
      match env.IMAGES.getWithMetadata name s2 with
      | (.error e, s3) => (.error e, s3)
      | (.ok metadata, s3) =>
        match imageData with
        | none => (.ok ⟨404, [], .text "Image not found"⟩, s3)
        | some bytes =>
          match headerValue rt (contentType metadata) with
          | .error e => (.error e, s3)
          | .ok v =>
            (.ok ⟨200, [("Content-Type", v), ("Cache-Control", "public, max-age=3600")],
              .bytes bytes⟩, s3)

/-- The function `handleImageView` (lines 105-130). -/
def handleImageView {σ : Type} (rt : Runtime) (env : Env σ) (s : σ) : Response × σ :=
  match handleImageViewTry rt env s with
  | (.ok r, s1) => (r, s1)
  | (.error e, s1) => (⟨500, [], .text ("Error retrieving image: " ++ e)⟩, s1)

/-! ## An in-memory backing store -/

/-- A stored entry: the value and its metadata record (`none` when written without one). -/
structure StoredObject where
  value : Bytes
  metadata : Option Metadata
deriving DecidableEq

/-- A call received by the store. -/
inductive Call where
  | list
  | delete (key : String)
  | put (key : String) (value : Bytes) (metadata : Metadata)
  | get (key : String)
  | getWithMetadata (key : String)
deriving DecidableEq

/-- State of the in-memory store: the entries in enumeration order, the script of faults
(the n-th call rejects with message `e` when the n-th element is `some e`; calls past the
end of the script succeed), and the log of the calls received so far. -/
structure World where
  objects : List (String × StoredObject)
  faults : List (Option String)
  log : List Call
deriving DecidableEq

/-- Reception of a call: it is logged and the next element of the fault script is consumed. -/
def World.receive (w : World) (c : Call) : Option String × World :=
  match w.faults with
  | [] => (none, { w with log := w.log ++ [c] })
  | x :: rest => (x, { w with faults := rest, log := w.log ++ [c] })

/-- Whether a call changes the content of the store when it succeeds. -/
def Call.mutates : Call → Bool
  | .delete _ => true
  | .put _ _ _ => true
  | _ => false

/-- Modelled from the spec: the backing key-value collaborator of section 4.1, which is not
part of the repository. `list` enumerates every entry present, `delete` removes the entry of
that name and succeeds when it is absent, `put` writes value and metadata as one unit
(replacing an entry of the same name), `get` and `getWithMetadata` answer `null` for an absent
name. A rejected call has no effect on the entries. -/
def memKV : KVNamespace World where
  list w :=
    match w.receive .list with
    | (some e, w1) => (.error e, w1)
    | (none, w1) => (.ok (w1.objects.map Prod.fst), w1)
  delete k w :=
    match w.receive (.delete k) with
    | (some e, w1) => (.error e, w1)
    | (none, w1) => (.ok (), { w1 with objects := w1.objects.filter (fun o => !(o.1 == k)) })
  put k v m w :=
    match w.receive (.put k v m) with
    | (some e, w1) => (.error e, w1)
    | (none, w1) =>
      (.ok (), { w1 with
        objects := w1.objects.filter (fun o => !(o.1 == k)) ++ [(k, ⟨v, some m⟩)] })
  get k w :=
    match w.receive (.get k) with
    | (some e, w1) => (.error e, w1)
    | (none, w1) => (.ok ((w1.objects.lookup k).map StoredObject.value), w1)
  getWithMetadata k w :=
    match w.receive (.getWithMetadata k) with
    | (some e, w1) => (.error e, w1)
    | (none, w1) =>
      match w1.objects.lookup k with
      | none => (.ok ⟨none, none⟩, w1)
      | some o => (.ok ⟨some o.value, o.metadata⟩, w1)

/-- The environment made of a secret binding and the in-memory store. -/
def memEnv (secret : Option String) : Env World := ⟨secret, memKV⟩

/-- The mutating calls of a log, in order. -/
def mutations (log : List Call) : List Call := log.filter Call.mutates

/-- A store raced by a concurrent clear: it answers like `memKV`, except that another writer
removes every entry right after a `list` call has been answered. -/
def clearedAfterListKV : KVNamespace World :=
  { memKV with
    list := fun w => ((memKV.list w).1, { (memKV.list w).2 with objects := [] }) }

/-! ## Sample inputs -/

/-- A 3-byte PNG file. -/
def samplePng : File := ⟨"cat.png", "image/png", 3, .ok [137, 80, 78]⟩

/-- A 2-byte GIF file. -/
def sampleGif : File := ⟨"dog.gif", "image/gif", 2, .ok [71, 73]⟩

/-- A PDF document. -/
def samplePdf : File := ⟨"doc.pdf", "application/pdf", 4, .ok [37, 80, 68, 70]⟩

/-- A file object without bytes but with an allowed declared type. -/
def emptyPng : File := ⟨"empty.png", "image/png", 0, .ok []⟩

/-- An upload request carrying a photo entry and a key entry. -/
def uploadRequest (photo : Option FormValue) (key : Option FormValue) : Request :=
  ⟨.ok ⟨photo, key⟩, "https://img.example"⟩

/-- A store state without fault script and with an empty log. -/
def quietWorld (objects : List (String × StoredObject)) : World := ⟨objects, [], []⟩

/-- Two stored entries: a GIF without bytes first, then a legacy entry. -/
def twoObjects : List (String × StoredObject) :=
  [("a", ⟨[], some ⟨none, some "image/gif", none, none⟩⟩), ("b", ⟨[1, 2], none⟩)]

/-- A file object whose payload cannot be read. -/
def unreadablePng : File := ⟨"cat.png", "image/png", 3, .error "stream closed"⟩

/-- A request whose body cannot be parsed as a form. -/
def unparsableRequest : Request := ⟨.error "Unrecognized Content-Type header value", "https://img.example"⟩

/-- A runtime that refuses code points above 255 in header values. -/
def strictRuntime : Runtime := ⟨fun _ => "Invalid header value.", true⟩

/-- Two stored entries: first a GIF without bytes whose recorded type is padded with blanks,
then a legacy entry. -/
def paddedGif : List (String × StoredObject) :=
  [("a", ⟨[], some ⟨none, some " image/gif ", none, none⟩⟩), ("b", ⟨[1, 2], none⟩)]

/-- A legacy entry stored under another name, without metadata. -/
def legacyObject : StoredObject := ⟨[1, 2], none⟩

/-! ## Basic facts -/

theorem expectedKey_ne_empty (binding : Option String) : expectedKey binding ≠ "" := by
  unfold expectedKey
  cases binding with
  | none => decide
  | some k =>
    by_cases h : k = ""
    · simp [h]
    · simp [h]

theorem strictEq_eq_true_iff (v : Option FormValue) (e : String) :
    strictEq v e = true ↔ v = some (.text e) := by
  cases v with
  | none => simp [strictEq]
  | some x =>
    cases x with
    | text s => simp [strictEq]
    | file f => simp [strictEq]

theorem truthy_expectedKey (binding : Option String) :
    truthy (some (.text (expectedKey binding))) = true := by
  simp [truthy, expectedKey_ne_empty]

theorem includesType_some (t : String) : includesType (some t) = true ↔ t ∈ allowedTypes := by
  simp [includesType]

/-! ## Validation gates of `handleUpload` -/

/-- C2 (rejection correctness). When the form was parsed and its key entry is absent or is
anything other than the string equal to the expected secret, `handleUpload` answers 401
`Unauthorized` and the store is in the state it was in before the call, for every behaviour
of the store and whatever the photo entry is. The expected secret is `expectedKey`, computed
as in the source: the default `your-upload-key` when `env.UPLOAD_KEY` is undefined (an empty
binding counts as undefined), the binding itself otherwise. -/
theorem upload_wrong_key_unauthorized {σ : Type} (now : String) (request : Request)
    (env : Env σ) (s : σ) (form : FormData)
    (hform : request.formData = .ok form)
    (hkey : form.key = none ∨ form.key ≠ some (.text (expectedKey env.UPLOAD_KEY))) :
    handleUpload now request env s = (⟨401, [], .text "Unauthorized"⟩, s)
      ∧ (env.UPLOAD_KEY = none → expectedKey env.UPLOAD_KEY = "your-upload-key")
      ∧ (∀ k, env.UPLOAD_KEY = some k → k ≠ "" → expectedKey env.UPLOAD_KEY = k) := by
  have hne : strictEq form.key (expectedKey env.UPLOAD_KEY) = false := by
    rw [Bool.eq_false_iff, Ne, strictEq_eq_true_iff]
    rcases hkey with h | h
    · simp [h]
    · exact h
  refine ⟨?_, ?_, ?_⟩
  · simp [handleUpload, handleUploadTry, hform, hne]
  · intro h
    simp [h, expectedKey]
  · intro k h hk
    simp [h, expectedKey, hk]

theorem upload_wrong_key_unauthorized_witness :
    handleUpload "2024-05-01T10:00:00.000Z"
        (uploadRequest (some (.file samplePng)) (some (.text "wrong")))
        (memEnv (some "secret")) (quietWorld [("old", legacyObject)])
      = (⟨401, [], .text "Unauthorized"⟩, quietWorld [("old", legacyObject)]) :=
  (upload_wrong_key_unauthorized "2024-05-01T10:00:00.000Z"
    (uploadRequest (some (.file samplePng)) (some (.text "wrong"))) (memEnv (some "secret"))
    (quietWorld [("old", legacyObject)]) ⟨some (.file samplePng), some (.text "wrong")⟩ rfl
    (Or.inr (by simp [expectedKey, memEnv]))).1

/-- C3 (type gate). With the correct key and a present photo entry whose declared type is not
in the allow-list (a `File` of another type, or a non-empty string, which declares none),
`handleUpload` answers 400 and the store is in the state it was in before the call, for every
behaviour of the store: no call reaches it, so no `delete` and no `put`. -/
theorem upload_type_gate {σ : Type} (now : String) (request : Request) (env : Env σ) (s : σ)
    (form : FormData) (v : FormValue)
    (hform : request.formData = .ok form)
    (hkey : form.key = some (.text (expectedKey env.UPLOAD_KEY)))
    (hphoto : form.photo = some v)
    (hpresent : truthy (some v) = true)
    (htype : ∀ t ∈ allowedTypes, declaredType v ≠ some t) :
    handleUpload now request env s
      = (⟨400, [], .text "Invalid file type. Only JPEG, PNG, GIF, and WebP allowed."⟩, s) := by
  have hinc : includesType (declaredType v) = false := by
    cases hd : declaredType v with
    | none => rfl
    | some t =>
      rw [Bool.eq_false_iff, Ne, includesType_some]
      intro hmem
      exact htype t hmem hd
  have hstrict : strictEq form.key (expectedKey env.UPLOAD_KEY) = true :=
    (strictEq_eq_true_iff _ _).2 hkey
  have htk : truthy form.key = true := by rw [hkey]; exact truthy_expectedKey _
  simp [handleUpload, handleUploadTry, hform, hstrict, htk, hphoto, hpresent, hinc]

theorem upload_type_gate_witness :
    handleUpload "2024-05-01T10:00:00.000Z"
        (uploadRequest (some (.file samplePdf)) (some (.text "secret")))
        (memEnv (some "secret")) (quietWorld [("old", legacyObject)])
      = (⟨400, [], .text "Invalid file type. Only JPEG, PNG, GIF, and WebP allowed."⟩,
          quietWorld [("old", legacyObject)]) :=
  upload_type_gate _ _ (memEnv (some "secret")) _ _ (.file samplePdf) rfl rfl rfl rfl
    (by simp [allowedTypes, declaredType, samplePdf])

/-- C5, as the code has it. With the correct key and a photo entry that is absent or is the
empty string, `handleUpload` answers 400 `No file uploaded` and the store is in the state it
was in before the call, for every behaviour of the store. -/
theorem upload_missing_photo {σ : Type} (now : String) (request : Request) (env : Env σ)
    (s : σ) (form : FormData)
    (hform : request.formData = .ok form)
    (hkey : form.key = some (.text (expectedKey env.UPLOAD_KEY)))
    (hphoto : form.photo = none ∨ form.photo = some (.text "")) :
    handleUpload now request env s = (⟨400, [], .text "No file uploaded"⟩, s) := by
  have hstrict : strictEq form.key (expectedKey env.UPLOAD_KEY) = true :=
    (strictEq_eq_true_iff _ _).2 hkey
  have htk : truthy form.key = true := by rw [hkey]; exact truthy_expectedKey _
  have hfalsy : truthy form.photo = false := by
    rcases hphoto with h | h <;> simp [h, truthy]
  simp [handleUpload, handleUploadTry, hform, hstrict, htk, hfalsy]

theorem upload_missing_photo_witness :
    handleUpload "2024-05-01T10:00:00.000Z" (uploadRequest none (some (.text "secret")))
        (memEnv (some "secret")) (quietWorld [("old", legacyObject)])
      = (⟨400, [], .text "No file uploaded"⟩, quietWorld [("old", legacyObject)]) :=
  upload_missing_photo _ _ (memEnv (some "secret")) _ _ rfl rfl (Or.inl rfl)

/-- C5, as stated, fails for a zero-byte file: a `File` object is truthy whatever its size,
so with the correct key and an allowed declared type the upload goes through, the answer is
the 200 success envelope and the store is rewritten. -/
theorem upload_zero_byte_file_accepted :
    handleUpload "2024-05-01T10:00:00.000Z"
        (uploadRequest (some (.file emptyPng)) (some (.text "secret")))
        (memEnv (some "secret")) (quietWorld [("old", legacyObject)])
      = (⟨200, [("Content-Type", "application/json")],
            .json [("success", .bool true), ("filename", .str "current-image"),
              ("url", .str "https://img.example/image"),
              ("message", .str "Photo uploaded successfully!")]⟩,
          ⟨[("current-image",
              ⟨[], some ⟨some "empty.png", some "image/png", some 0,
                some "2024-05-01T10:00:00.000Z"⟩⟩)],
            [],
            [.list, .delete "old",
              .put "current-image" [] ⟨some "empty.png", some "image/png", some 0,
                some "2024-05-01T10:00:00.000Z"⟩]⟩)
    ∧ (handleUpload "2024-05-01T10:00:00.000Z"
        (uploadRequest (some (.file emptyPng)) (some (.text "secret")))
        (memEnv (some "secret")) (quietWorld [("old", legacyObject)])).1
      ≠ ⟨400, [], .text "No file uploaded"⟩ := by
  constructor
  · rfl
  · decide

/-! ## `handleImageView` -/

/-- Any observation of the store state that the three read operations leave alone is left
alone by `handleImageView`. -/
theorem handleImageView_preserves {σ α : Type} (rt : Runtime) (env : Env σ) (obs : σ → α)
    (hlist : ∀ s, obs (env.IMAGES.list s).2 = obs s)
    (hget : ∀ k s, obs (env.IMAGES.get k s).2 = obs s)
    (hmeta : ∀ k s, obs (env.IMAGES.getWithMetadata k s).2 = obs s) (s : σ) :
    obs (handleImageView rt env s).2 = obs s := by
  unfold handleImageView handleImageViewTry
  have h1 := hlist s
  rcases hl : env.IMAGES.list s with ⟨r1, s1⟩
  rw [hl] at h1
  rcases r1 with e | keys
  · simpa using h1
  · rcases keys with _ | ⟨name, others⟩
    · simpa using h1
    · have h2 := hget name s1
      rcases hg : env.IMAGES.get name s1 with ⟨r2, s2⟩
      rw [hg] at h2
      rcases r2 with e | imageData
      · simpa [hg] using h2.trans h1
      · have h3 := hmeta name s2
        rcases hm : env.IMAGES.getWithMetadata name s2 with ⟨r3, s3⟩
        rw [hm] at h3
        rcases r3 with e | metadata
        · simpa [hg, hm] using (h3.trans h2).trans h1
        · cases imageData with
          | none => simpa [hg, hm] using (h3.trans h2).trans h1
          | some bytes =>
            cases hv : headerValue rt (contentType metadata) <;>
              simpa [hg, hm, hv] using (h3.trans h2).trans h1

theorem isHttpWhitespace_iff (c : Char) :
    isHttpWhitespace c = true ↔ c.toNat = 9 ∨ c.toNat = 10 ∨ c.toNat = 13 ∨ c.toNat = 32 := by
  simp [isHttpWhitespace, or_assoc]

theorem isForbiddenInValue_iff (c : Char) :
    isForbiddenInValue c = true ↔ c.toNat = 0 ∨ c.toNat = 10 ∨ c.toNat = 13 := by
  simp [isForbiddenInValue, or_assoc]

theorem stripWhitespace_spec (cs : List Char) :
    ∃ l t, cs = l ++ stripWhitespace cs ++ t
      ∧ (∀ c ∈ l, isHttpWhitespace c = true) ∧ (∀ c ∈ t, isHttpWhitespace c = true)
      ∧ (∀ c, (stripWhitespace cs).head? = some c → isHttpWhitespace c = false)
      ∧ (∀ c, (stripWhitespace cs).getLast? = some c → isHttpWhitespace c = false) := by
  have h1 := List.takeWhile_append_dropWhile isHttpWhitespace cs
  have h2 := List.takeWhile_append_dropWhile isHttpWhitespace
    (cs.dropWhile isHttpWhitespace).reverse
  have h3 : cs.dropWhile isHttpWhitespace
      = stripWhitespace cs
        ++ ((cs.dropWhile isHttpWhitespace).reverse.takeWhile isHttpWhitespace).reverse := by
    have h := congrArg List.reverse h2
    rw [List.reverse_append, List.reverse_reverse] at h
    exact h.symm
  refine ⟨cs.takeWhile isHttpWhitespace,
    ((cs.dropWhile isHttpWhitespace).reverse.takeWhile isHttpWhitespace).reverse,
    ?_, ?_, ?_, ?_, ?_⟩
  · rw [List.append_assoc, ← h3, h1]
  · intro c hc
    exact List.mem_takeWhile_imp hc
  · intro c hc
    exact List.mem_takeWhile_imp (List.mem_reverse.1 hc)
  · intro c hc
    rw [List.head?_eq_some_iff] at hc
    obtain ⟨ys, hys⟩ := hc
    have hd := List.head?_dropWhile_not isHttpWhitespace cs
    rw [h3, hys] at hd
    simpa using hd
  · intro c hc
    have hd := List.head?_dropWhile_not isHttpWhitespace
      (cs.dropWhile isHttpWhitespace).reverse
    rw [stripWhitespace, List.getLast?_reverse] at hc
    rw [hc] at hd
    exact hd

theorem headerValue_ok (rt : Runtime) (raw : String)
    (hvalid : ∀ c ∈ (normalizeValue raw).data, isForbiddenInValue c = false)
    (hlatin : ∀ c ∈ raw.data, c.toNat ≤ 255) :
    headerValue rt raw = .ok (normalizeValue raw) := by
  have h1 : (normalizeValue raw).data.any isForbiddenInValue = false := by
    rw [List.any_eq_false]
    intro c hc
    simp [hvalid c hc]
  have h2 : raw.data.any (fun c => decide (255 < c.toNat)) = false := by
    rw [List.any_eq_false]
    intro c hc
    simpa using hlatin c hc
  simp [headerValue, h1, h2]

theorem headerValue_error (rt : Runtime) (raw : String) (c : Char)
    (hc : c ∈ (normalizeValue raw).data) (hbad : isForbiddenInValue c = true) :
    headerValue rt raw = .error (rt.typeErrorMessage raw) := by
  have h1 : (normalizeValue raw).data.any isForbiddenInValue = true :=
    List.any_eq_true.2 ⟨c, hc, hbad⟩
  simp [headerValue, h1]

theorem headerValue_allowedTypes (rt : Runtime) (t : String) (ht : t ∈ allowedTypes) :
    headerValue rt t = .ok t := by
  simp only [allowedTypes, List.mem_cons, List.mem_singleton, List.not_mem_nil, or_false] at ht
  rcases ht with h | h | h | h <;> subst h <;> rfl

theorem receive_objects (w : World) (c : Call) : (w.receive c).2.objects = w.objects := by
  unfold World.receive
  cases w.faults <;> rfl

theorem receive_log (w : World) (c : Call) : (w.receive c).2.log = w.log ++ [c] := by
  unfold World.receive
  cases w.faults <;> rfl

theorem memKV_list_observation (w : World) :
    (memKV.list w).2.objects = w.objects
      ∧ mutations (memKV.list w).2.log = mutations w.log := by
  have ho := receive_objects w .list
  have hl := receive_log w .list
  simp only [memKV]
  rcases hr : w.receive .list with ⟨x, w1⟩
  rw [hr] at ho hl
  cases x <;> simp_all [mutations, List.filter_append, Call.mutates]

theorem memKV_get_observation (k : String) (w : World) :
    (memKV.get k w).2.objects = w.objects
      ∧ mutations (memKV.get k w).2.log = mutations w.log := by
  have ho := receive_objects w (.get k)
  have hl := receive_log w (.get k)
  simp only [memKV]
  rcases hr : w.receive (.get k) with ⟨x, w1⟩
  rw [hr] at ho hl
  cases x <;> simp_all [mutations, List.filter_append, Call.mutates]

theorem memKV_getWithMetadata_observation (k : String) (w : World) :
    (memKV.getWithMetadata k w).2.objects = w.objects
      ∧ mutations (memKV.getWithMetadata k w).2.log = mutations w.log := by
  have ho := receive_objects w (.getWithMetadata k)
  have hl := receive_log w (.getWithMetadata k)
  simp only [memKV]
  rcases hr : w.receive (.getWithMetadata k) with ⟨x, w1⟩
  rw [hr] at ho hl
  cases x
  · dsimp only at ho hl ⊢
    split <;> simp [ho, hl, mutations, List.filter_append, Call.mutates]
  · simp_all [mutations, List.filter_append, Call.mutates]

/-- C7 (empty-store read). Whenever the `list` call answers an empty listing,
`handleImageView` answers 404 `No image found`, not the 500 of the `catch`, and the store is
in the state the `list` call left it in, for every behaviour of the store: no `get` and no
other call follows the `list`. -/
theorem view_empty_listing {σ : Type} (rt : Runtime) (env : Env σ) (s s1 : σ)
    (hlist : env.IMAGES.list s = (.ok [], s1)) :
    handleImageView rt env s = (⟨404, [], .text "No image found"⟩, s1) := by
  simp [handleImageView, handleImageViewTry, hlist]

theorem view_empty_listing_witness :
    (memEnv none).IMAGES.list (quietWorld []) = (.ok [], ⟨[], [], [.list]⟩)
      ∧ handleImageView strictRuntime (memEnv none) (quietWorld [])
        = (⟨404, [], .text "No image found"⟩, ⟨[], [], [.list]⟩) :=
  ⟨rfl, view_empty_listing strictRuntime (memEnv none) (quietWorld []) ⟨[], [], [.list]⟩ rfl⟩

/-- C8, as the code has it. Whenever the listing is non-empty, `get` on the first listed name
answers a payload `b` (of any length, zero included) and `getWithMetadata` answers `r`, the
string given for the `Content-Type` header is `contentType r`: the `mimeType` of the
metadata record when it has a non-empty one, and `image/jpeg` when the record is missing, has
no `mimeType`, or has an empty one. The `Response` constructor takes that string with leading
and trailing whitespace (tab, LF, CR, space) removed. When what is left holds no NUL, LF or
CR (and no code point of the string is above 255), `handleImageView` answers 200 with body
`b`, that value as `Content-Type`, and `Cache-Control: public, max-age=3600`. When what is
left holds a NUL, LF or CR, the constructor throws and `handleImageView` answers 500
`Error retrieving image: ` followed by the message of the error. Nothing else of the store
(the other listed names, their entries) enters the response. -/
theorem view_serves_first_listed {σ : Type} (rt : Runtime) (env : Env σ) (s s1 s2 s3 : σ)
    (name : String) (others : List String) (b : Bytes) (r : ValueWithMetadata)
    (hlist : env.IMAGES.list s = (.ok (name :: others), s1))
    (hget : env.IMAGES.get name s1 = (.ok (some b), s2))
    (hmeta : env.IMAGES.getWithMetadata name s2 = (.ok r, s3)) :
    ((∀ c ∈ (normalizeValue (contentType r)).data, ¬ (c.toNat = 0 ∨ c.toNat = 10 ∨ c.toNat = 13)) →
      (∀ c ∈ (contentType r).data, c.toNat ≤ 255) →
      handleImageView rt env s
        = (⟨200, [("Content-Type", normalizeValue (contentType r)),
              ("Cache-Control", "public, max-age=3600")], .bytes b⟩, s3))
      ∧ ((∃ c ∈ (normalizeValue (contentType r)).data,
            c.toNat = 0 ∨ c.toNat = 10 ∨ c.toNat = 13) →
          handleImageView rt env s
            = (⟨500, [],
                .text ("Error retrieving image: " ++ rt.typeErrorMessage (contentType r))⟩, s3))
      ∧ (∀ m t, r.metadata = some m → m.mimeType = some t → t ≠ "" → contentType r = t)
      ∧ (r.metadata = none → contentType r = "image/jpeg")
      ∧ (∀ m, r.metadata = some m → m.mimeType = none ∨ m.mimeType = some "" →
          contentType r = "image/jpeg")
      ∧ (∀ raw : String, ∃ l t, raw.data = l ++ (normalizeValue raw).data ++ t
          ∧ (∀ c ∈ l, c.toNat = 9 ∨ c.toNat = 10 ∨ c.toNat = 13 ∨ c.toNat = 32)
          ∧ (∀ c ∈ t, c.toNat = 9 ∨ c.toNat = 10 ∨ c.toNat = 13 ∨ c.toNat = 32)
          ∧ (∀ c, (normalizeValue raw).data.head? = some c →
              ¬ (c.toNat = 9 ∨ c.toNat = 10 ∨ c.toNat = 13 ∨ c.toNat = 32))
          ∧ (∀ c, (normalizeValue raw).data.getLast? = some c →
              ¬ (c.toNat = 9 ∨ c.toNat = 10 ∨ c.toNat = 13 ∨ c.toNat = 32))) := by
  refine ⟨?_, ?_, ?_, ?_, ?_, ?_⟩
  · intro hvalid hlatin
    have hv := headerValue_ok rt (contentType r)
      (fun c hc => by
        rw [Bool.eq_false_iff, Ne, isForbiddenInValue_iff]
        exact hvalid c hc)
      hlatin
    simp [handleImageView, handleImageViewTry, hlist, hget, hmeta, hv]
  · rintro ⟨c, hc, hbad⟩
    have hv := headerValue_error rt (contentType r) c hc ((isForbiddenInValue_iff c).2 hbad)
    simp [handleImageView, handleImageViewTry, hlist, hget, hmeta, hv]
  · intro m t hm ht hne
    simp [contentType, hm, ht, hne]
  · intro hm
    simp [contentType, hm]
  · intro m hm ht
    rcases ht with ht | ht <;> simp [contentType, hm, ht]
  · intro raw
    obtain ⟨l, t, h0, hl, ht, hhead, hlast⟩ := stripWhitespace_spec raw.data
    refine ⟨l, t, h0, ?_, ?_, ?_, ?_⟩
    · intro c hc
      exact (isHttpWhitespace_iff c).1 (hl c hc)
    · intro c hc
      exact (isHttpWhitespace_iff c).1 (ht c hc)
    · intro c hc hws
      have h := hhead c hc
      rw [(isHttpWhitespace_iff c).2 hws] at h
      exact Bool.noConfusion h
    · intro c hc hws
      have h := hlast c hc
      rw [(isHttpWhitespace_iff c).2 hws] at h
      exact Bool.noConfusion h

theorem view_serves_first_listed_witness :
    handleImageView strictRuntime (memEnv none) (quietWorld paddedGif)
      = (⟨200, [("Content-Type", "image/gif"), ("Cache-Control", "public, max-age=3600")],
          .bytes []⟩,
        ⟨paddedGif, [], [.list, .get "a", .getWithMetadata "a"]⟩) :=
  (view_serves_first_listed strictRuntime (memEnv none) (quietWorld paddedGif)
    ⟨paddedGif, [], [.list]⟩ ⟨paddedGif, [], [.list, .get "a"]⟩
    ⟨paddedGif, [], [.list, .get "a", .getWithMetadata "a"]⟩ "a" ["b"] []
    ⟨some [], some ⟨none, some " image/gif ", none, none⟩⟩ rfl rfl rfl).1
    (by decide) (by decide)

/-- C8, as stated, fails in three ways. For a metadata record whose `mimeType` is the empty
string, the record has a `mimeType`, yet the `Content-Type` of the response is `image/jpeg`,
not that value. For a metadata record whose `mimeType` holds a line feed in the middle, the
response is not 200 with body `b`: the `Response` constructor throws and the answer is 500.
For a metadata record whose `mimeType` is padded with blanks, the `Content-Type` of the
response is the value without the blanks. -/
theorem view_mimeType_not_served_as_stored :
    handleImageView strictRuntime (memEnv none)
        (quietWorld [("a", ⟨[7], some ⟨none, some "", none, none⟩⟩)])
      = (⟨200, [("Content-Type", "image/jpeg"), ("Cache-Control", "public, max-age=3600")],
          .bytes [7]⟩,
        ⟨[("a", ⟨[7], some ⟨none, some "", none, none⟩⟩)], [],
          [.list, .get "a", .getWithMetadata "a"]⟩)
    ∧ (handleImageView strictRuntime (memEnv none)
        (quietWorld [("a", ⟨[7], some ⟨none, some "", none, none⟩⟩)])).1.headers
      ≠ [("Content-Type", ""), ("Cache-Control", "public, max-age=3600")]
    ∧ handleImageView strictRuntime (memEnv none)
        (quietWorld [("a", ⟨[7], some ⟨none, some "image/png\nx", none, none⟩⟩)])
      = (⟨500, [], .text "Error retrieving image: Invalid header value."⟩,
        ⟨[("a", ⟨[7], some ⟨none, some "image/png\nx", none, none⟩⟩)], [],
          [.list, .get "a", .getWithMetadata "a"]⟩)
    ∧ (handleImageView strictRuntime (memEnv none)
        (quietWorld [("a", ⟨[7], some ⟨none, some "image/png\nx", none, none⟩⟩)])).1.status
      ≠ 200
    ∧ (handleImageView strictRuntime (memEnv none) (quietWorld paddedGif)).1
      = ⟨200, [("Content-Type", "image/gif"), ("Cache-Control", "public, max-age=3600")],
          .bytes []⟩
    ∧ (handleImageView strictRuntime (memEnv none) (quietWorld paddedGif)).1.headers
      ≠ [("Content-Type", " image/gif "), ("Cache-Control", "public, max-age=3600")] := by
  refine ⟨?_, ?_, ?_, ?_, ?_, ?_⟩
  · rfl
  · decide
  · rfl
  · decide
  · rfl
  · decide

/-- C9 (listed-but-vanished read). First part: whenever the listing is non-empty and `get` on
the first listed name answers no payload, `handleImageView` answers 404 `Image not found`,
not 500, whatever `getWithMetadata` answers for that name (a `null` metadata record
included). Second part: the response and the final store state of `handleImageView` do not
depend on what `delete` and `put` would do. Third part: on the in-memory store, in every
outcome (faults included), the entries are the same before and after `handleImageView`, and
the log has gained no `delete` and no `put`. -/
theorem view_listed_but_vanished :
    (∀ {σ : Type} (rt : Runtime) (env : Env σ) (s s1 s2 s3 : σ) (name : String)
        (others : List String) (r : ValueWithMetadata),
        env.IMAGES.list s = (.ok (name :: others), s1) →
        env.IMAGES.get name s1 = (.ok none, s2) →
        env.IMAGES.getWithMetadata name s2 = (.ok r, s3) →
        handleImageView rt env s = (⟨404, [], .text "Image not found"⟩, s3))
    ∧ (∀ {σ : Type} (rt : Runtime) (env : Env σ) (s : σ)
        (del : String → σ → Except String Unit × σ)
        (put : String → Bytes → Metadata → σ → Except String Unit × σ),
        handleImageView rt ⟨env.UPLOAD_KEY, { env.IMAGES with delete := del, put := put }⟩ s
          = handleImageView rt env s)
    ∧ (∀ (rt : Runtime) (secret : Option String) (w : World),
        (handleImageView rt (memEnv secret) w).2.objects = w.objects
          ∧ mutations (handleImageView rt (memEnv secret) w).2.log = mutations w.log) := by
  refine ⟨?_, ?_, ?_⟩
  · intro σ rt env s s1 s2 s3 name others r hlist hget hmeta
    simp [handleImageView, handleImageViewTry, hlist, hget, hmeta]
  · intro σ rt env s del put
    rfl
  · intro rt secret w
    have h := handleImageView_preserves rt (memEnv secret)
      (fun w : World => (w.objects, mutations w.log))
      (fun s => by simp [memEnv, memKV_list_observation])
      (fun k s => by simp [memEnv, memKV_get_observation])
      (fun k s => by simp [memEnv, memKV_getWithMetadata_observation]) w
    simpa using h

theorem view_listed_but_vanished_witness :
    handleImageView strictRuntime ⟨none, clearedAfterListKV⟩
        (quietWorld [("current-image", ⟨[1, 2, 3], none⟩)])
      = (⟨404, [], .text "Image not found"⟩,
          ⟨[], [], [.list, .get "current-image", .getWithMetadata "current-image"]⟩) :=
  view_listed_but_vanished.1 strictRuntime ⟨none, clearedAfterListKV⟩ _ ⟨[], [], [.list]⟩
    ⟨[], [], [.list, .get "current-image"]⟩
    ⟨[], [], [.list, .get "current-image", .getWithMetadata "current-image"]⟩
    "current-image" [] ⟨none, none⟩ rfl rfl rfl

/-! ## The in-memory store under `handleUpload` -/

theorem receive_eq (w : World) (c : Call) :
    w.receive c = (w.faults.head?.getD none, ⟨w.objects, w.faults.tail, w.log ++ [c]⟩) := by
  unfold World.receive
  cases w.faults <;> rfl

theorem deleteAll_memKV (keys : List String) : ∀ (w : World),
    (∀ x ∈ w.faults.take keys.length, x = none) →
    deleteAll memKV keys w
      = (.ok (), ⟨w.objects.filter (fun o => !keys.contains o.1),
          w.faults.drop keys.length, w.log ++ keys.map Call.delete⟩) := by
  induction keys with
  | nil =>
    intro w _
    simp [deleteAll]
  | cons k ks ih =>
    intro w hw
    obtain ⟨objs, faults, log⟩ := w
    have hhead : faults.head?.getD none = none := by
      cases faults with
      | nil => rfl
      | cons x rest => exact hw x (by simp)
    have htail : ∀ x ∈ faults.tail.take ks.length, x = none := by
      intro x hx
      cases faults with
      | nil => simp at hx
      | cons y rest => exact hw x (by simp at hx ⊢; exact Or.inr hx)
    have hstep : memKV.delete k ⟨objs, faults, log⟩
        = (.ok (), ⟨objs.filter (fun o => !(o.1 == k)), faults.tail, log ++ [.delete k]⟩) := by
      simp [memKV, receive_eq, hhead]
    rw [deleteAll, hstep]
    simp only []
    rw [ih _ htail]
    simp only [List.filter_filter, List.length_cons, List.map_cons, List.append_assoc,
      List.singleton_append, List.drop_succ_cons, Prod.mk.injEq, World.mk.injEq, true_and]
    refine ⟨?_, ?_, trivial⟩
    · apply List.filter_congr
      intro o _
      by_cases h : o.1 = k
      · simp [h]
      · simp [h, Ne.symm h]
    · cases faults <;> simp

theorem filter_own_keys (l : List (String × StoredObject)) :
    l.filter (fun o => !(l.map Prod.fst).contains o.1) = [] := by
  rw [List.filter_eq_nil_iff]
  intro o ho
  simp only [List.contains_iff_exists_mem_beq, Bool.not_eq_true, Bool.not_eq_false_eq_eq_true,
    Bool.not_not]
  exact ⟨o.1, List.mem_map_of_mem _ ho, by simp⟩

/-- The calls of a clear phase followed by a write: `list`, one `delete` per entry, `put`. -/
def replaceCalls (objects : List (String × StoredObject)) (b : Bytes) (m : Metadata) :
    List Call :=
  .list :: objects.map (fun o => Call.delete o.1) ++ [.put filename b m]

theorem replaceImage_memKV (now origin : String) (secret : Option String) (f : File)
    (b : Bytes) (w : World) (hbytes : f.arrayBuffer = .ok b)
    (hclear : ∀ x ∈ w.faults.take (w.objects.length + 1), x = none) :
    replaceImage now origin (memEnv secret) f w
      = match (w.faults.drop (w.objects.length + 1)).head?.getD none with
        | some e =>
          (.error e, ⟨[], w.faults.drop (w.objects.length + 2),
            w.log ++ replaceCalls w.objects b (uploadMetadata now f)⟩)
        | none =>
          (.ok (successResponse origin),
            ⟨[(filename, ⟨b, some (uploadMetadata now f)⟩)],
              w.faults.drop (w.objects.length + 2),
              w.log ++ replaceCalls w.objects b (uploadMetadata now f)⟩) := by
  obtain ⟨objs, faults, log⟩ := w
  have hhead : faults.head?.getD none = none := by
    cases faults with
    | nil => rfl
    | cons x rest => exact hclear x (by simp)
  have htail : ∀ x ∈ faults.tail.take (objs.map Prod.fst).length, x = none := by
    intro x hx
    cases faults with
    | nil => simp at hx
    | cons y rest => exact hclear x (by simp at hx ⊢; exact Or.inr hx)
  have hlist : memKV.list ⟨objs, faults, log⟩
      = (.ok (objs.map Prod.fst), ⟨objs, faults.tail, log ++ [.list]⟩) := by
    simp [memKV, receive_eq, hhead]
  have hdel := deleteAll_memKV (objs.map Prod.fst) ⟨objs, faults.tail, log ++ [.list]⟩ htail
  rw [filter_own_keys] at hdel
  have hdrop : ∀ n, faults.tail.drop n = faults.drop (n + 1) := by
    intro n
    cases faults <;> simp
  simp only [replaceImage, memEnv, hlist, hdel, hbytes]
  simp only [memKV, receive_eq, List.length_map, hdrop, List.filter_nil, List.nil_append,
    List.tail_drop, List.map_map]
  cases (faults.drop (objs.length + 1)).head?.getD none <;>
    simp [replaceCalls, Function.comp_def]

theorem handleUploadTry_of_gates {σ : Type} (now : String) (request : Request) (env : Env σ)
    (s : σ) (form : FormData) (f : File)
    (hform : request.formData = .ok form)
    (hkey : form.key = some (.text (expectedKey env.UPLOAD_KEY)))
    (hphoto : form.photo = some (.file f))
    (htype : f.type ∈ allowedTypes) :
    handleUploadTry now request env s = replaceImage now request.origin env f s := by
  have hstrict : strictEq form.key (expectedKey env.UPLOAD_KEY) = true :=
    (strictEq_eq_true_iff _ _).2 hkey
  have htk : truthy form.key = true := by rw [hkey]; exact truthy_expectedKey _
  have hinc : includesType (declaredType (.file f)) = true :=
    (includesType_some f.type).2 htype
  have htf : truthy (some (.file f)) = true := rfl
  simp [handleUploadTry, hform, hstrict, htk, hphoto, htf, hinc]

theorem handleUpload_memKV_ok (now : String) (request : Request) (secret : Option String)
    (w : World) (form : FormData) (f : File) (b : Bytes)
    (hform : request.formData = .ok form)
    (hkey : form.key = some (.text (expectedKey secret)))
    (hphoto : form.photo = some (.file f))
    (htype : f.type ∈ allowedTypes)
    (hbytes : f.arrayBuffer = .ok b)
    (hok : ∀ x ∈ w.faults.take (w.objects.length + 2), x = none) :
    handleUpload now request (memEnv secret) w
      = (successResponse request.origin,
          ⟨[(filename, ⟨b, some (uploadMetadata now f)⟩)],
            w.faults.drop (w.objects.length + 2),
            w.log ++ replaceCalls w.objects b (uploadMetadata now f)⟩) := by
  have hclear : ∀ x ∈ w.faults.take (w.objects.length + 1), x = none := by
    intro x hx
    exact hok x (List.take_subset_take_left _ (Nat.le_succ _) hx)
  have hput : (w.faults.drop (w.objects.length + 1)).head?.getD none = none := by
    cases hd : (w.faults.drop (w.objects.length + 1)).head? with
    | none => rfl
    | some x =>
      have hx : x ∈ w.faults.take (w.objects.length + 2) := by
        rw [List.head?_drop] at hd
        rw [List.mem_take_iff_getElem]
        obtain ⟨hlt, hget⟩ := List.getElem?_eq_some_iff.1 hd
        exact ⟨w.objects.length + 1, by omega, hget⟩
      simpa using hok x hx
  have htry := handleUploadTry_of_gates now request (memEnv secret) w form f hform hkey hphoto
    htype
  rw [handleUpload, htry, replaceImage_memKV now request.origin secret f b w hbytes hclear, hput]

theorem handleImageView_memKV (rt : Runtime) (secret : Option String) (k : String)
    (o : StoredObject) (others : List (String × StoredObject)) (faults : List (Option String))
    (log : List Call) (v : String)
    (hv : headerValue rt (contentType ⟨some o.value, o.metadata⟩) = .ok v)
    (hok : ∀ x ∈ faults.take 3, x = none) :
    handleImageView rt (memEnv secret) ⟨(k, o) :: others, faults, log⟩
      = (⟨200, [("Content-Type", v), ("Cache-Control", "public, max-age=3600")],
            .bytes o.value⟩,
          ⟨(k, o) :: others, faults.drop 3, log ++ [.list, .get k, .getWithMetadata k]⟩) := by
  rcases faults with _ | ⟨f1, _ | ⟨f2, _ | ⟨f3, rest⟩⟩⟩
  · simp [handleImageView, handleImageViewTry, memEnv, memKV, World.receive, hv]
  · have h1 : f1 = none := hok f1 (by simp)
    subst h1
    simp [handleImageView, handleImageViewTry, memEnv, memKV, World.receive, hv]
  · have h1 : f1 = none := hok f1 (by simp)
    have h2 : f2 = none := hok f2 (by simp)
    subst h1 h2
    simp [handleImageView, handleImageViewTry, memEnv, memKV, World.receive, hv]
  · have h1 : f1 = none := hok f1 (by simp)
    have h2 : f2 = none := hok f2 (by simp)
    have h3 : f3 = none := hok f3 (by simp)
    subst h1 h2 h3
    simp [handleImageView, handleImageViewTry, memEnv, memKV, World.receive, hv]

/-! ## Single-slot replace and round trip -/

/-- C1 (single-slot replace). On the in-memory store, from any entries under any names, with
a fault script that holds no fault (every store call succeeds), an upload whose key is the
expected secret, whose photo is a file `f` of an allowed declared type and whose payload reads
as `b` gets the success envelope: status 200, `Content-Type: application/json`, and the JSON
body `success: true, filename: current-image, url: origin ++ "/image", message`. Afterwards
the store holds exactly one entry, named `current-image`, with value `b` and metadata
`originalName = f.name`, `mimeType = f.type`, `size = f.size`, `uploadDate = now`. A second
such upload on the resulting store gets the same envelope and leaves exactly its own entry:
nothing of the first remains. -/
theorem upload_single_slot (now : String) (request : Request) (secret : Option String)
    (w : World) (form : FormData) (f : File) (b : Bytes)
    (hform : request.formData = .ok form)
    (hkey : form.key = some (.text (expectedKey secret)))
    (hphoto : form.photo = some (.file f))
    (htype : f.type ∈ allowedTypes)
    (hbytes : f.arrayBuffer = .ok b)
    (hok : ∀ x ∈ w.faults, x = none) :
    (handleUpload now request (memEnv secret) w).1
        = ⟨200, [("Content-Type", "application/json")],
            .json [("success", .bool true), ("filename", .str "current-image"),
              ("url", .str (request.origin ++ "/image")),
              ("message", .str "Photo uploaded successfully!")]⟩
      ∧ (handleUpload now request (memEnv secret) w).1.status = 200
      ∧ (handleUpload now request (memEnv secret) w).2.objects
          = [("current-image", ⟨b, some ⟨some f.name, some f.type, some f.size, some now⟩⟩)]
      ∧ (∀ (now2 : String) (request2 : Request) (form2 : FormData) (f2 : File) (b2 : Bytes),
          request2.formData = .ok form2 →
          form2.key = some (.text (expectedKey secret)) →
          form2.photo = some (.file f2) →
          f2.type ∈ allowedTypes →
          f2.arrayBuffer = .ok b2 →
          (handleUpload now2 request2 (memEnv secret)
              (handleUpload now request (memEnv secret) w).2).1
            = ⟨200, [("Content-Type", "application/json")],
                .json [("success", .bool true), ("filename", .str "current-image"),
                  ("url", .str (request2.origin ++ "/image")),
                  ("message", .str "Photo uploaded successfully!")]⟩
          ∧ (handleUpload now2 request2 (memEnv secret)
              (handleUpload now request (memEnv secret) w).2).2.objects
            = [("current-image",
                ⟨b2, some ⟨some f2.name, some f2.type, some f2.size, some now2⟩⟩)]) := by
  have h1 := handleUpload_memKV_ok now request secret w form f b hform hkey hphoto htype hbytes
    (fun x hx => hok x (List.take_subset _ _ hx))
  refine ⟨by rw [h1]; rfl, by rw [h1]; rfl, by rw [h1]; rfl, ?_⟩
  intro now2 request2 form2 f2 b2 hform2 hkey2 hphoto2 htype2 hbytes2
  have hok2 : ∀ x ∈ (handleUpload now request (memEnv secret) w).2.faults, x = none := by
    rw [h1]
    intro x hx
    exact hok x (List.drop_subset _ _ hx)
  have h2 := handleUpload_memKV_ok now2 request2 secret
    (handleUpload now request (memEnv secret) w).2 form2 f2 b2 hform2 hkey2 hphoto2 htype2
    hbytes2 (fun x hx => hok2 x (List.take_subset _ _ hx))
  exact ⟨by rw [h2]; rfl, by rw [h2]; rfl⟩

theorem upload_single_slot_witness :
    (handleUpload "2024-05-01T10:00:00.000Z"
        (uploadRequest (some (.file samplePng)) (some (.text "secret")))
        (memEnv (some "secret")) (quietWorld twoObjects)).1
      = ⟨200, [("Content-Type", "application/json")],
          .json [("success", .bool true), ("filename", .str "current-image"),
            ("url", .str "https://img.example/image"),
            ("message", .str "Photo uploaded successfully!")]⟩
    ∧ (handleUpload "2024-05-01T10:00:00.000Z"
        (uploadRequest (some (.file samplePng)) (some (.text "secret")))
        (memEnv (some "secret")) (quietWorld twoObjects)).2.objects
      = [("current-image",
          ⟨[137, 80, 78], some ⟨some "cat.png", some "image/png", some 3,
            some "2024-05-01T10:00:00.000Z"⟩⟩)] :=
  ⟨(upload_single_slot "2024-05-01T10:00:00.000Z"
      (uploadRequest (some (.file samplePng)) (some (.text "secret"))) (some "secret")
      (quietWorld twoObjects) ⟨some (.file samplePng), some (.text "secret")⟩ samplePng
      [137, 80, 78] rfl rfl rfl (by decide) rfl (by simp [quietWorld])).1,
    (upload_single_slot "2024-05-01T10:00:00.000Z"
      (uploadRequest (some (.file samplePng)) (some (.text "secret"))) (some "secret")
      (quietWorld twoObjects) ⟨some (.file samplePng), some (.text "secret")⟩ samplePng
      [137, 80, 78] rfl rfl rfl (by decide) rfl (by simp [quietWorld])).2.2.1⟩

/-- C4 (upload/retrieve round trip). On the in-memory store with a fault script that holds no
fault, an upload with the expected key of a file `f` of an allowed declared type whose payload
reads as `b` is answered by the 200 JSON envelope with `success: true` and
`url = origin ++ "/image"`, and `handleImageView` run on the store state the upload left
answers 200 with body exactly `b` and `Content-Type` exactly `f.type`, on every runtime. -/
theorem upload_then_view (rt : Runtime) (now : String) (request : Request)
    (secret : Option String) (w : World) (form : FormData) (f : File) (b : Bytes)
    (hform : request.formData = .ok form)
    (hkey : form.key = some (.text (expectedKey secret)))
    (hphoto : form.photo = some (.file f))
    (htype : f.type ∈ allowedTypes)
    (hbytes : f.arrayBuffer = .ok b)
    (hok : ∀ x ∈ w.faults, x = none) :
    (handleUpload now request (memEnv secret) w).1
        = ⟨200, [("Content-Type", "application/json")],
            .json [("success", .bool true), ("filename", .str "current-image"),
              ("url", .str (request.origin ++ "/image")),
              ("message", .str "Photo uploaded successfully!")]⟩
      ∧ (handleImageView rt (memEnv secret) (handleUpload now request (memEnv secret) w).2).1
        = ⟨200, [("Content-Type", f.type), ("Cache-Control", "public, max-age=3600")],
            .bytes b⟩ := by
  have h1 := handleUpload_memKV_ok now request secret w form f b hform hkey hphoto htype hbytes
    (fun x hx => hok x (List.take_subset _ _ hx))
  have hne : f.type ≠ "" := by
    intro h
    rw [h] at htype
    revert htype
    decide
  have hct : contentType ⟨some b, some (uploadMetadata now f)⟩ = f.type := by
    simp [contentType, uploadMetadata, hne]
  have hv : headerValue rt (contentType ⟨some b, some (uploadMetadata now f)⟩) = .ok f.type := by
    rw [hct]
    exact headerValue_allowedTypes rt f.type htype
  refine ⟨by rw [h1]; rfl, ?_⟩
  rw [h1]
  rw [handleImageView_memKV rt secret filename ⟨b, some (uploadMetadata now f)⟩ [] _ _ f.type hv
    (fun x hx => hok x (List.drop_subset _ _ (List.take_subset _ _ hx)))]

theorem upload_then_view_witness :
    (handleImageView strictRuntime (memEnv (some "secret"))
        (handleUpload "2024-05-01T10:00:00.000Z"
          (uploadRequest (some (.file samplePng)) (some (.text "secret")))
          (memEnv (some "secret")) (quietWorld twoObjects)).2).1
      = ⟨200, [("Content-Type", "image/png"), ("Cache-Control", "public, max-age=3600")],
          .bytes [137, 80, 78]⟩ :=
  (upload_then_view strictRuntime "2024-05-01T10:00:00.000Z"
    (uploadRequest (some (.file samplePng)) (some (.text "secret"))) (some "secret")
    (quietWorld twoObjects) ⟨some (.file samplePng), some (.text "secret")⟩ samplePng
    [137, 80, 78] rfl rfl rfl (by decide) rfl (by simp [quietWorld])).2

/-! ## Failure of an upload -/

theorem memKV_delete_length (k : String) (w : World) :
    (memKV.delete k w).2.objects.length ≤ w.objects.length := by
  simp only [memKV, receive_eq]
  cases w.faults.head?.getD none
  · exact List.length_filter_le _ _
  · exact Nat.le_refl _

theorem deleteAll_memKV_length (keys : List String) : ∀ (w : World),
    (deleteAll memKV keys w).2.objects.length ≤ w.objects.length := by
  induction keys with
  | nil => intro w; exact Nat.le_refl _
  | cons k ks ih =>
    intro w
    have h1 := memKV_delete_length k w
    rw [deleteAll]
    rcases hd : memKV.delete k w with ⟨r, w1⟩
    rw [hd] at h1
    cases r with
    | error e => exact h1
    | ok u => exact Nat.le_trans (ih w1) h1

/-- C10 (a failed write leaves the store cleared). On the in-memory store, for an upload that
passes the key, presence and type gates and whose payload reads as `b`: first part, when the
`list` call and every `delete` succeed and the `put` is rejected with message `e`,
`handleUpload` answers the failure envelope (status 500, `Content-Type: application/json`,
JSON body `success: false, error: e`) and the store holds no entry afterwards, so that it
holds what it held before only when it held nothing. Second part,
under any fault script: when the answer is the 500 envelope and the store holds afterwards
what it held before, then it held nothing, or the `list` call was rejected, or the first
`delete` was rejected (no `delete` was completed). -/
theorem upload_put_failure_clears_store (now : String) (request : Request)
    (secret : Option String) (form : FormData) (f : File)
    (hform : request.formData = .ok form)
    (hkey : form.key = some (.text (expectedKey secret)))
    (hphoto : form.photo = some (.file f))
    (htype : f.type ∈ allowedTypes) :
    (∀ (w : World) (b : Bytes) (e : String) (rest : List (Option String)),
        f.arrayBuffer = .ok b →
        w.faults = List.replicate (w.objects.length + 1) none ++ some e :: rest →
        handleUpload now request (memEnv secret) w
            = (⟨500, [("Content-Type", "application/json")],
                  .json [("success", .bool false), ("error", .str e)]⟩,
                ⟨[], rest,
                  w.log ++ .list :: w.objects.map (fun o => Call.delete o.1)
                    ++ [.put "current-image" b
                        ⟨some f.name, some f.type, some f.size, some now⟩]⟩)
          ∧ (handleUpload now request (memEnv secret) w).1.status = 500
          ∧ (handleUpload now request (memEnv secret) w).2.objects = []
          ∧ ((handleUpload now request (memEnv secret) w).2.objects = w.objects
              ↔ w.objects = []))
    ∧ (∀ (w : World),
        (handleUpload now request (memEnv secret) w).1.status = 500 →
        (handleUpload now request (memEnv secret) w).2.objects = w.objects →
        w.objects = [] ∨ (∃ e, w.faults.head? = some (some e))
          ∨ (∃ e, w.faults.tail.head? = some (some e))) := by
  have htry := fun w => handleUploadTry_of_gates now request (memEnv secret) w form f hform
    hkey hphoto htype
  constructor
  · intro w b e rest hbytes hfaults
    have hclear : ∀ x ∈ w.faults.take (w.objects.length + 1), x = none := by
      intro x hx
      rw [hfaults, List.take_left' (List.length_replicate _ _)] at hx
      exact List.eq_of_mem_replicate hx
    have hput : (w.faults.drop (w.objects.length + 1)).head?.getD none = some e := by
      rw [hfaults, List.drop_left' (List.length_replicate _ _)]
      rfl
    have hdrop : w.faults.drop (w.objects.length + 2) = rest := by
      rw [hfaults, List.append_cons]
      exact List.drop_left' (by simp)
    have h : handleUpload now request (memEnv secret) w
        = (failureResponse e,
            ⟨[], rest, w.log ++ replaceCalls w.objects b (uploadMetadata now f)⟩) := by
      rw [handleUpload, htry, replaceImage_memKV now request.origin secret f b w hbytes hclear,
        hput, hdrop]
    refine ⟨?_, ?_, ?_, ?_⟩
    · rw [h]
      simp [failureResponse, replaceCalls, uploadMetadata, filename]
    · rw [h]
      rfl
    · rw [h]
    · rw [h]
      exact ⟨fun h0 => h0.symm, fun h0 => h0.symm⟩
  · intro w hstatus hsame
    by_contra hcon
    simp only [not_or, not_exists] at hcon
    obtain ⟨hne, hlistOk, hdelOk⟩ := hcon
    obtain ⟨objs, faults, log⟩ := w
    obtain ⟨⟨k, o⟩, os, rfl⟩ := List.exists_cons_of_ne_nil hne
    have hhead : faults.head?.getD none = none := by
      cases hh : faults.head? with
      | none => rfl
      | some x =>
        cases x with
        | none => rfl
        | some e => exact absurd hh (hlistOk e)
    have hhead2 : faults.tail.head?.getD none = none := by
      cases hh : faults.tail.head? with
      | none => rfl
      | some x =>
        cases x with
        | none => rfl
        | some e => exact absurd hh (hdelOk e)
    have hlt : (handleUpload now request (memEnv secret) ⟨(k, o) :: os, faults, log⟩).2.objects.length
        < ((k, o) :: os).length := by
      rw [handleUpload, htry] at hstatus ⊢
      simp only [replaceImage, memEnv, memKV, receive_eq, hhead, List.map_cons, deleteAll,
        hhead2] at hstatus ⊢
      have hlen := deleteAll_memKV_length (os.map Prod.fst)
        ⟨List.filter (fun o => !(o.1 == k)) ((k, o) :: os), faults.tail.tail,
          log ++ [.list] ++ [.delete k]⟩
      have hfil : (List.filter (fun o => !(o.1 == k)) ((k, o) :: os)).length ≤ os.length := by
        simp [List.filter_cons]
        exact List.length_filter_le _ _
      simp only [memKV, receive_eq] at hlen
      rcases hd : deleteAll _ (os.map Prod.fst) _ with ⟨r, w3⟩
      rw [hd] at hlen hstatus
      have hw3 : w3.objects.length < ((k, o) :: os).length := by
        simp only [List.length_cons]
        exact Nat.lt_succ_of_le (Nat.le_trans hlen hfil)
      cases r with
      | error e => exact hw3
      | ok u =>
        cases hb : f.arrayBuffer with
        | error e => simpa [hb] using hw3
        | ok b =>
          simp only [hb] at hstatus ⊢
          cases hp : w3.faults.head?.getD none with
          | none =>
            simp [hp, successResponse] at hstatus
          | some e => simpa [hp] using hw3
    rw [hsame] at hlt
    exact Nat.lt_irrefl _ hlt

theorem upload_put_failure_clears_store_witness :
    handleUpload "2024-05-01T10:00:00.000Z"
        (uploadRequest (some (.file samplePng)) (some (.text "secret")))
        (memEnv (some "secret")) ⟨twoObjects, [none, none, none, some "KV PUT failed"], []⟩
      = (⟨500, [("Content-Type", "application/json")],
            .json [("success", .bool false), ("error", .str "KV PUT failed")]⟩,
          ⟨[], [],
            [.list, .delete "a", .delete "b",
              .put "current-image" [137, 80, 78]
                ⟨some "cat.png", some "image/png", some 3,
                  some "2024-05-01T10:00:00.000Z"⟩]⟩) :=
  ((upload_put_failure_clears_store "2024-05-01T10:00:00.000Z"
    (uploadRequest (some (.file samplePng)) (some (.text "secret"))) (some "secret")
    ⟨some (.file samplePng), some (.text "secret")⟩ samplePng rfl rfl rfl (by decide)).1
    ⟨twoObjects, [none, none, none, some "KV PUT failed"], []⟩ [137, 80, 78] "KV PUT failed" []
    rfl rfl).1

theorem deleteAll_throws {σ : Type} (kv : KVNamespace σ) (pre : List String) (k : String)
    (post : List String) : ∀ (s s2 s3 : σ) (e : String),
    deleteAll kv pre s = (.ok (), s2) → kv.delete k s2 = (.error e, s3) →
    deleteAll kv (pre ++ k :: post) s = (.error e, s3) := by
  induction pre with
  | nil =>
    intro s s2 s3 e h1 h2
    simp only [deleteAll, Prod.mk.injEq, true_and] at h1
    subst h1
    simp [deleteAll, h2]
  | cons p ps ih =>
    intro s s2 s3 e h1 h2
    rw [deleteAll] at h1
    rw [List.cons_append, deleteAll]
    rcases hd : kv.delete p s with ⟨r, s1⟩
    rw [hd] at h1
    cases r with
    | error e1 => simp at h1
    | ok u => exact ih s1 s2 s3 e h1 h2

theorem handleUpload_success_inv {σ : Type} (now : String) (request : Request) (env : Env σ)
    (s : σ) (fields : List (String × JsonValue))
    (hbody : (handleUpload now request env s).1.body = .json fields)
    (hmem : ("success", JsonValue.bool true) ∈ fields) :
    ∃ form f b keys s1 s2, request.formData = .ok form ∧ form.photo = some (.file f)
      ∧ env.IMAGES.list s = (.ok keys, s1) ∧ deleteAll env.IMAGES keys s1 = (.ok (), s2)
      ∧ f.arrayBuffer = .ok b
      ∧ env.IMAGES.put filename b (uploadMetadata now f) s2
          = (.ok (), (handleUpload now request env s).2) := by
  have hfail : ∀ e, ¬ ((failureResponse e).body = .json fields) := by
    intro e h
    simp only [failureResponse, Body.json.injEq] at h
    subst h
    simp at hmem
  unfold handleUpload at hbody ⊢
  rcases ht : handleUploadTry now request env s with ⟨res, s'⟩
  rw [ht] at hbody
  cases res with
  | error e => exact absurd hbody (hfail e)
  | ok r =>
    simp only [] at hbody ⊢
    unfold handleUploadTry at ht
    cases hf : request.formData with
    | error e => simp [hf] at ht
    | ok form =>
      simp only [hf] at ht
      by_cases hk : (!truthy form.key || !strictEq form.key (expectedKey env.UPLOAD_KEY)) = true
      · rw [if_pos hk] at ht
        simp only [Prod.mk.injEq, Except.ok.injEq] at ht
        obtain ⟨rfl, rfl⟩ := ht
        simp at hbody
      · rw [if_neg hk] at ht
        by_cases hp0 : (!truthy form.photo) = true
        · rw [if_pos hp0] at ht
          simp only [Prod.mk.injEq, Except.ok.injEq] at ht
          obtain ⟨rfl, rfl⟩ := ht
          simp at hbody
        · rw [if_neg hp0] at ht
          cases hp : form.photo with
          | none =>
            simp only [hp, Prod.mk.injEq, Except.ok.injEq] at ht
            obtain ⟨rfl, rfl⟩ := ht
            simp at hbody
          | some v =>
            simp only [hp] at ht
            by_cases hi : (!includesType (declaredType v)) = true
            · rw [if_pos hi] at ht
              simp only [Prod.mk.injEq, Except.ok.injEq] at ht
              obtain ⟨rfl, rfl⟩ := ht
              simp at hbody
            · rw [if_neg hi] at ht
              cases v with
              | text t =>
                simp only [Prod.mk.injEq, Except.ok.injEq] at ht
                obtain ⟨rfl, rfl⟩ := ht
                simp at hbody
              | file f =>
                simp only [replaceImage] at ht
                rcases hl : env.IMAGES.list s with ⟨r1, s1⟩
                rw [hl] at ht
                cases r1 with
                | error e => simp at ht
                | ok keys =>
                  simp only [] at ht
                  rcases hd : deleteAll env.IMAGES keys s1 with ⟨r2, s2⟩
                  rw [hd] at ht
                  cases r2 with
                  | error e => simp at ht
                  | ok u =>
                    simp only [] at ht
                    cases hb : f.arrayBuffer with
                    | error e => simp [hb] at ht
                    | ok b =>
                      simp only [hb] at ht
                      rcases hput : env.IMAGES.put filename b (uploadMetadata now f) s2
                        with ⟨r3, s3⟩
                      rw [hput] at ht
                      cases r3 with
                      | error e => simp at ht
                      | ok u2 =>
                        simp only [Prod.mk.injEq, Except.ok.injEq] at ht
                        obtain ⟨-, rfl⟩ := ht
                        exact ⟨form, f, b, keys, s1, s2, rfl, hp, rfl, hd, hb, hput⟩

/-- C6 (no partial success). For every request, secret, store behaviour and store state:
a throw of form parsing, and, once the key, presence and type gates are passed, a throw of
`list`, of any `delete` of the loop (the deletes before it having succeeded), of the read of
the payload, or of `put`, each with message `e`, makes `handleUpload` answer
`failureResponse e`, which is status 500 with the JSON body `success: false, error: e`; the
store is left in the state the throwing step left it in. And when the response is a JSON body
holding `success: true`, the form was parsed, the photo is a file, `list`, the deletes and the
read succeeded, and the `put` of the payload and metadata under `current-image` returned
without error, leaving the final store state. -/
theorem upload_throw_is_reported {σ : Type} (now : String) (request : Request) (env : Env σ)
    (s : σ) :
    (∀ e, failureResponse e
        = ⟨500, [("Content-Type", "application/json")],
            .json [("success", .bool false), ("error", .str e)]⟩)
    ∧ (∀ e, request.formData = .error e →
        handleUpload now request env s = (failureResponse e, s))
    ∧ (∀ form f, request.formData = .ok form →
        form.key = some (.text (expectedKey env.UPLOAD_KEY)) →
        form.photo = some (.file f) →
        f.type ∈ allowedTypes →
        (∀ e s1, env.IMAGES.list s = (.error e, s1) →
            handleUpload now request env s = (failureResponse e, s1))
        ∧ (∀ pre k post s1 s2 e s3, env.IMAGES.list s = (.ok (pre ++ k :: post), s1) →
            deleteAll env.IMAGES pre s1 = (.ok (), s2) →
            env.IMAGES.delete k s2 = (.error e, s3) →
            handleUpload now request env s = (failureResponse e, s3))
        ∧ (∀ keys s1 s2, env.IMAGES.list s = (.ok keys, s1) →
            deleteAll env.IMAGES keys s1 = (.ok (), s2) →
            (∀ e, f.arrayBuffer = .error e →
                handleUpload now request env s = (failureResponse e, s2))
            ∧ (∀ b e s3, f.arrayBuffer = .ok b →
                env.IMAGES.put filename b (uploadMetadata now f) s2 = (.error e, s3) →
                handleUpload now request env s = (failureResponse e, s3))))
    ∧ (∀ fields, (handleUpload now request env s).1.body = .json fields →
        ("success", JsonValue.bool true) ∈ fields →
        ∃ form f b keys s1 s2, request.formData = .ok form ∧ form.photo = some (.file f)
          ∧ env.IMAGES.list s = (.ok keys, s1) ∧ deleteAll env.IMAGES keys s1 = (.ok (), s2)
          ∧ f.arrayBuffer = .ok b
          ∧ env.IMAGES.put filename b (uploadMetadata now f) s2
              = (.ok (), (handleUpload now request env s).2)) := by
  refine ⟨fun _ => rfl, ?_, ?_, ?_⟩
  · intro e hf
    simp [handleUpload, handleUploadTry, hf]
  · intro form f hform hkey hphoto htype
    have htry := handleUploadTry_of_gates now request env s form f hform hkey hphoto htype
    refine ⟨?_, ?_, ?_⟩
    · intro e s1 hl
      simp [handleUpload, htry, replaceImage, hl]
    · intro pre k post s1 s2 e s3 hl hd hk
      have hall := deleteAll_throws env.IMAGES pre k post s1 s2 s3 e hd hk
      simp [handleUpload, htry, replaceImage, hl, hall]
    · intro keys s1 s2 hl hd
      constructor
      · intro e hb
        simp [handleUpload, htry, replaceImage, hl, hd, hb]
      · intro b e s3 hb hput
        simp [handleUpload, htry, replaceImage, hl, hd, hb, hput]
  · intro fields hbody hmem
    exact handleUpload_success_inv now request env s fields hbody hmem

theorem upload_throw_is_reported_witness :
    handleUpload "2024-05-01T10:00:00.000Z" unparsableRequest (memEnv (some "secret"))
        (quietWorld twoObjects)
      = (failureResponse "Unrecognized Content-Type header value", quietWorld twoObjects)
    ∧ handleUpload "2024-05-01T10:00:00.000Z"
        (uploadRequest (some (.file samplePng)) (some (.text "secret")))
        (memEnv (some "secret")) ⟨twoObjects, [some "KV LIST failed"], []⟩
      = (failureResponse "KV LIST failed", ⟨twoObjects, [], [.list]⟩)
    ∧ handleUpload "2024-05-01T10:00:00.000Z"
        (uploadRequest (some (.file samplePng)) (some (.text "secret")))
        (memEnv (some "secret")) ⟨twoObjects, [none, none, some "KV DELETE failed"], []⟩
      = (failureResponse "KV DELETE failed",
          ⟨[("b", ⟨[1, 2], none⟩)], [], [.list, .delete "a", .delete "b"]⟩)
    ∧ handleUpload "2024-05-01T10:00:00.000Z"
        (uploadRequest (some (.file unreadablePng)) (some (.text "secret")))
        (memEnv (some "secret")) (quietWorld twoObjects)
      = (failureResponse "stream closed", ⟨[], [], [.list, .delete "a", .delete "b"]⟩)
    ∧ handleUpload "2024-05-01T10:00:00.000Z"
        (uploadRequest (some (.file samplePng)) (some (.text "secret")))
        (memEnv (some "secret")) ⟨twoObjects, [none, none, none, some "KV PUT failed"], []⟩
      = (failureResponse "KV PUT failed",
          ⟨[], [],
            [.list, .delete "a", .delete "b",
              .put "current-image" [137, 80, 78]
                ⟨some "cat.png", some "image/png", some 3,
                  some "2024-05-01T10:00:00.000Z"⟩]⟩) :=
  ⟨(upload_throw_is_reported "2024-05-01T10:00:00.000Z" unparsableRequest
      (memEnv (some "secret")) (quietWorld twoObjects)).2.1 _ rfl,
    ((upload_throw_is_reported "2024-05-01T10:00:00.000Z"
      (uploadRequest (some (.file samplePng)) (some (.text "secret")))
      (memEnv (some "secret")) ⟨twoObjects, [some "KV LIST failed"], []⟩).2.2.1
      ⟨some (.file samplePng), some (.text "secret")⟩ samplePng rfl rfl rfl (by decide)).1
      "KV LIST failed" ⟨twoObjects, [], [.list]⟩ rfl,
    ((upload_throw_is_reported "2024-05-01T10:00:00.000Z"
      (uploadRequest (some (.file samplePng)) (some (.text "secret")))
      (memEnv (some "secret")) ⟨twoObjects, [none, none, some "KV DELETE failed"], []⟩).2.2.1
      ⟨some (.file samplePng), some (.text "secret")⟩ samplePng rfl rfl rfl (by decide)).2.1
      ["a"] "b" [] ⟨twoObjects, [none, some "KV DELETE failed"], [.list]⟩
      ⟨[("b", ⟨[1, 2], none⟩)], [some "KV DELETE failed"], [.list, .delete "a"]⟩
      "KV DELETE failed" ⟨[("b", ⟨[1, 2], none⟩)], [], [.list, .delete "a", .delete "b"]⟩
      rfl rfl rfl,
    (((upload_throw_is_reported "2024-05-01T10:00:00.000Z"
      (uploadRequest (some (.file unreadablePng)) (some (.text "secret")))
      (memEnv (some "secret")) (quietWorld twoObjects)).2.2.1
      ⟨some (.file unreadablePng), some (.text "secret")⟩ unreadablePng rfl rfl rfl
      (by decide)).2.2
      ["a", "b"] ⟨twoObjects, [], [.list]⟩ ⟨[], [], [.list, .delete "a", .delete "b"]⟩
      rfl rfl).1 "stream closed" rfl,
    (((upload_throw_is_reported "2024-05-01T10:00:00.000Z"
      (uploadRequest (some (.file samplePng)) (some (.text "secret")))
      (memEnv (some "secret")) ⟨twoObjects, [none, none, none, some "KV PUT failed"], []⟩).2.2.1
      ⟨some (.file samplePng), some (.text "secret")⟩ samplePng rfl rfl rfl (by decide)).2.2
      ["a", "b"] ⟨twoObjects, [none, none, some "KV PUT failed"], [.list]⟩
      ⟨[], [some "KV PUT failed"], [.list, .delete "a", .delete "b"]⟩ rfl rfl).2
      [137, 80, 78] "KV PUT failed"
      ⟨[], [], [.list, .delete "a", .delete "b",
        .put "current-image" [137, 80, 78]
          ⟨some "cat.png", some "image/png", some 3, some "2024-05-01T10:00:00.000Z"⟩]⟩
      rfl rfl⟩

end Imglog
